import Mathlib

/-!
Shallow embedding of the `simple-rule-engine` operator library.

The repository's `src/` contains `simpleruleengine/operator/string_in.py`
(the `In` operator) and `simpleruleengine/test_operator.py`.  The other
operators (`Between`, `Gte`, `BooleanOperator`) and the `StringOperator`
base class are referenced by the tests but their files are not under
`src/`; those are modelled from the spec, and are marked as such.

Python values relevant to the operators are embedded as the mutual
inductive types `PyVal` / `PyList` (lists and tuples of values).
Python's `isinstance(value_to_evaluate, list)` dispatch corresponds to
matching on the `PyVal.list` constructor; a Python tuple is a distinct
constructor `PyVal.tuple`, so a tuple does not take the list branch,
exactly as in CPython.

Each `evaluate` method is embedded in state-passing style,
`Self → candidate → Bool × Self`, returning the (possibly updated)
operator alongside the result: the Python methods never assign to
`self`, so the returned operator is the receiver itself, which is the
content of the frame/purity claims.
-/

namespace SimpleRuleEngine

mutual

/-- Embedding of the Python values the operators are exercised with:
strings, integers, booleans, lists and tuples. -/
inductive PyVal : Type where
  | str : String → PyVal
  | int : Int → PyVal
  | bool : Bool → PyVal
  | list : PyList → PyVal
  | tuple : PyList → PyVal
deriving DecidableEq

/-- A sequence of Python values (the contents of a list or tuple). -/
inductive PyList : Type where
  | nil : PyList
  | cons : PyVal → PyList → PyList
deriving DecidableEq

end

/-- View a `PyList` as a Lean list of its elements. -/
def PyList.toList : PyList → List PyVal
  | .nil => []
  | .cons a as => a :: toList as

/-- Build a `PyList` from a Lean list of elements. -/
def PyList.ofList : List PyVal → PyList
  | [] => .nil
  | a :: as => .cons a (ofList as)

/-- Python's `isinstance(v, list)`: true exactly on the `list`
constructor (a tuple or any other value is not a `list`). -/
def PyVal.isList : PyVal → Bool
  | .list _ => true
  | _ => false

/-- Python's `set(xs) == set(ys)` on hashable elements: the two
collections hold exactly the same distinct elements. -/
def setEq (xs ys : List PyVal) : Bool :=
  decide (∀ x ∈ xs, x ∈ ys) && decide (∀ y ∈ ys, y ∈ xs)

/-- The `In` operator of `src/simpleruleengine/operator/string_in.py`.
`__init__(self, *base_value)` captures the variadic arguments and hands
them to `StringOperator.__init__`, which (modelled from the spec: the
`string_operator.py` file is not under `src/`; the spec says the base
class "holds one or more immutable base values captured at
construction") stores them as `self.base_value`. -/
structure In where
  base_value : List PyVal
deriving DecidableEq

/-- Evaluation method of `In`, from `string_in.py`:
```
if isinstance(value_to_evaluate, list):
    return set(self.base_value) == set(value_to_evaluate)
return value_to_evaluate in self.base_value
```
State-passing: the method assigns to nothing, so the returned operator
is the receiver. -/
def In.evaluate (self : In) (value_to_evaluate : PyVal) : Bool × In :=
  match value_to_evaluate with
  | .list elems => (setEq self.base_value elems.toList, self)
  | v => (decide (v ∈ self.base_value), self)

/-- Modelled from the spec: `between.py` is not under `src/`.  Spec 4.2:
base attributes `floor`, `ceiling` (any mutually ordered type); no
validation that `floor <= ceiling`. -/
structure Between (α : Type) where
  floor : α
  ceiling : α

/-- Modelled from the spec: `evaluate` of `Between` returns `true` iff
`floor <= candidate <= ceiling`, inclusive both ends; pure, no
mutation. -/
def Between.evaluate {α : Type} [LinearOrder α] (self : Between α) (candidate : α) :
    Bool × Between α :=
  (decide (self.floor ≤ candidate) && decide (candidate ≤ self.ceiling), self)

/-- Modelled from the spec: `greater_than_equal.py` is not under `src/`.
Spec 4.3: single base value. -/
structure Gte (α : Type) where
  base_value : α

/-- Modelled from the spec: `evaluate` of `Gte` returns `true` iff
`candidate >= base`; pure, no mutation. -/
def Gte.evaluate {α : Type} [LinearOrder α] (self : Gte α) (candidate : α) :
    Bool × Gte α :=
  (decide (self.base_value ≤ candidate), self)

/-- Modelled from the spec: `boolean_operator.py` is not under `src/`.
Spec 4.5: single boolean base value. -/
structure BooleanOperator where
  base_value : Bool
deriving DecidableEq

/-- Modelled from the spec: `evaluate` of `BooleanOperator` returns
`true` iff `candidate == base`, strict boolean equality; pure, no
mutation. -/
def BooleanOperator.evaluate (self : BooleanOperator) (candidate : Bool) :
    Bool × BooleanOperator :=
  (candidate == self.base_value, self)

/-- Helper: `setEq` decides exactly "same distinct elements on both
sides". -/
theorem setEq_eq_true_iff (xs ys : List PyVal) :
    setEq xs ys = true ↔ ∀ x : PyVal, x ∈ xs ↔ x ∈ ys := by
  simp only [setEq, Bool.and_eq_true, decide_eq_true_eq]
  constructor
  · rintro ⟨h1, h2⟩ x
    exact ⟨h1 x, h2 x⟩
  · intro h
    exact ⟨fun x hx => (h x).mp hx, fun y hy => (h y).mpr hy⟩

/-- Helper: a `PyList` converts to the empty Lean list exactly when it
is `nil`. -/
theorem PyList.toList_eq_nil_iff (l : PyList) : l.toList = [] ↔ l = .nil := by
  cases l <;> simp [PyList.toList]

/-- C1: on a list candidate, `In.evaluate` returns true exactly when the
base values and the candidate elements are equal as sets (order- and
duplicate-insensitive), and returns false whenever one side's distinct
elements form a strict subset of the other's. -/
theorem In.evaluate_list_set_equality :
    (∀ (b : In) (c : PyList),
      ((b.evaluate (.list c)).1 = true ↔
        ∀ x : PyVal, x ∈ b.base_value ↔ x ∈ c.toList))
    ∧ (∀ (b : In) (c : PyList),
      (((∀ x ∈ b.base_value, x ∈ c.toList) ∧ ¬ (∀ x ∈ c.toList, x ∈ b.base_value)) ∨
       ((∀ x ∈ c.toList, x ∈ b.base_value) ∧ ¬ (∀ x ∈ b.base_value, x ∈ c.toList))) →
      (b.evaluate (.list c)).1 = false) := by
  have key : ∀ (b : In) (c : PyList),
      (b.evaluate (.list c)).1 = true ↔
        ∀ x : PyVal, x ∈ b.base_value ↔ x ∈ c.toList := by
    intro b c
    simpa [In.evaluate] using setEq_eq_true_iff b.base_value c.toList
  refine ⟨key, fun b c h => ?_⟩
  cases hres : (b.evaluate (.list c)).1
  · rfl
  · exfalso
    have hall := (key b c).mp hres
    rcases h with ⟨_, hne⟩ | ⟨_, hne⟩
    · exact hne fun x hx => (hall x).mpr hx
    · exact hne fun x hx => (hall x).mp hx

/-- Witness for C1 at the spec's example: `In("dog","cat")` on the list
`["dog"]` (a strict subset) evaluates to false. -/
theorem In.evaluate_list_set_equality_witness :
    ((In.mk [.str "dog", .str "cat"]).evaluate
      (.list (PyList.ofList [.str "dog"]))).1 = false :=
  In.evaluate_list_set_equality.2 _ _ (Or.inr (by decide))

/-- C2: on a non-list candidate, `In.evaluate` returns true exactly when
the candidate is an element of the base values captured at
construction. -/
theorem In.evaluate_scalar_membership (b : In) (v : PyVal)
    (h : v.isList = false) :
    ((b.evaluate v).1 = true ↔ v ∈ b.base_value) := by
  cases v <;> simp_all [In.evaluate, PyVal.isList]

/-- Witness for C2 at the spec's example: `In("dog","cat")` on the
scalar `"dog"` evaluates to true. -/
theorem In.evaluate_scalar_membership_witness :
    (PyVal.str "dog").isList = false ∧
      ((In.mk [.str "dog", .str "cat"]).evaluate (.str "dog")).1 = true :=
  ⟨by decide,
    (In.evaluate_scalar_membership (In.mk [.str "dog", .str "cat"])
      (.str "dog") (by decide)).mpr (by decide)⟩

/-- C3: for `floor <= ceiling`, `Between.evaluate` returns true exactly
when `floor <= x <= ceiling`, inclusive at both ends, and false whenever
`x < floor` or `x > ceiling`. -/
theorem Between.evaluate_inclusive {α : Type} [LinearOrder α]
    (b : Between α) (_hfc : b.floor ≤ b.ceiling) (x : α) :
    ((b.evaluate x).1 = true ↔ (b.floor ≤ x ∧ x ≤ b.ceiling))
    ∧ ((x < b.floor ∨ b.ceiling < x) → (b.evaluate x).1 = false) := by
  constructor
  · simp [Between.evaluate]
  · rintro (hx | hx)
    · have hn : ¬ b.floor ≤ x := not_le.mpr hx
      simp [Between.evaluate, hn]
    · have hn : ¬ x ≤ b.ceiling := not_le.mpr hx
      simp [Between.evaluate, hn]

/-- Witness for C3 at the tests' numbers: `Between(650, 800)` on `675`
is true, on `625` is false. -/
theorem Between.evaluate_inclusive_witness :
    (650 : Int) ≤ 800 ∧
      ((Between.mk (650 : Int) 800).evaluate 675).1 = true ∧
      ((Between.mk (650 : Int) 800).evaluate 625).1 = false :=
  ⟨by decide,
    (Between.evaluate_inclusive (Between.mk (650 : Int) 800)
      (by decide) 675).1.mpr (by decide),
    (Between.evaluate_inclusive (Between.mk (650 : Int) 800)
      (by decide) 625).2 (Or.inl (by decide))⟩

/-- C4: `Gte.evaluate` returns true exactly when `x >= base`, and false
exactly when `x < base`. -/
theorem Gte.evaluate_ge (α : Type) [LinearOrder α] (g : Gte α) (x : α) :
    ((g.evaluate x).1 = true ↔ g.base_value ≤ x)
    ∧ ((g.evaluate x).1 = false ↔ x < g.base_value) := by
  constructor
  · simp [Gte.evaluate]
  · simp [Gte.evaluate, not_le]

/-- Witness for C4 at the tests' numbers: `Gte(650)` on `675` is true,
on `649` is false. -/
theorem Gte.evaluate_ge_witness :
    ((Gte.mk (650 : Int)).evaluate 675).1 = true ∧
      ((Gte.mk (650 : Int)).evaluate 649).1 = false :=
  ⟨(Gte.evaluate_ge Int (Gte.mk 650) 675).1.mpr (by decide),
    (Gte.evaluate_ge Int (Gte.mk 650) 649).2.mpr (by decide)⟩

/-- C5: `BooleanOperator.evaluate` returns true exactly when the boolean
candidate equals the boolean base value, by strict boolean equality. -/
theorem BooleanOperator.evaluate_strict_equality
    (b : BooleanOperator) (c : Bool) :
    ((b.evaluate c).1 = true ↔ c = b.base_value) := by
  simp [BooleanOperator.evaluate]

/-- Witness for C5 at the spec's examples. -/
theorem BooleanOperator.evaluate_strict_equality_witness :
    ((BooleanOperator.mk true).evaluate true).1 = true ∧
      ((BooleanOperator.mk false).evaluate false).1 = true ∧
      ((BooleanOperator.mk true).evaluate false).1 ≠ true :=
  ⟨(BooleanOperator.evaluate_strict_equality (BooleanOperator.mk true)
      true).mpr rfl,
    (BooleanOperator.evaluate_strict_equality (BooleanOperator.mk false)
      false).mpr rfl,
    fun h =>
      Bool.noConfusion
        ((BooleanOperator.evaluate_strict_equality (BooleanOperator.mk true)
          false).mp h)⟩

/-- C6: for every operator, calling `evaluate` again with the same
candidate on the state left by a first call returns the identical
result-and-state pair: evaluation is a deterministic pure function of
the construction-time base values and the candidate, with no state drift
between calls. -/
theorem evaluate_repeat_deterministic :
    (∀ (b : In) (v : PyVal), ((b.evaluate v).2).evaluate v = b.evaluate v)
    ∧ (∀ (α : Type) [LinearOrder α] (b : Between α) (x : α),
        ((b.evaluate x).2).evaluate x = b.evaluate x)
    ∧ (∀ (α : Type) [LinearOrder α] (g : Gte α) (x : α),
        ((g.evaluate x).2).evaluate x = g.evaluate x)
    ∧ (∀ (b : BooleanOperator) (c : Bool),
        ((b.evaluate c).2).evaluate c = b.evaluate c) := by
  refine ⟨fun b v => ?_, fun α _ b x => rfl, fun α _ g x => rfl,
    fun b c => rfl⟩
  cases v <;> rfl

/-- C7: for every operator, `evaluate` leaves the operator unchanged: the
state returned by the state-passing embedding is the receiver itself, so
the base values captured at construction are never mutated. -/
theorem evaluate_no_mutation :
    (∀ (b : In) (v : PyVal), (b.evaluate v).2 = b)
    ∧ (∀ (α : Type) [LinearOrder α] (b : Between α) (x : α),
        (b.evaluate x).2 = b)
    ∧ (∀ (α : Type) [LinearOrder α] (g : Gte α) (x : α),
        (g.evaluate x).2 = g)
    ∧ (∀ (b : BooleanOperator) (c : Bool), (b.evaluate c).2 = b) := by
  refine ⟨fun b v => ?_, fun α _ b x => rfl, fun α _ g x => rfl,
    fun b c => rfl⟩
  cases v <;> rfl

/-- C8: the dispatch in `In.evaluate` tests for the list type
specifically: a tuple candidate takes the scalar membership branch, so a
tuple holding exactly the base values evaluates to false even though the
same elements as a list evaluate to true. -/
theorem In.evaluate_tuple_scalar_mode :
    (∀ (b : In) (ts : PyList),
        (b.evaluate (.tuple ts)).1 = decide (PyVal.tuple ts ∈ b.base_value))
    ∧ ((In.mk [.str "dog", .str "cat"]).evaluate
        (.tuple (PyList.ofList [.str "dog", .str "cat"]))).1 = false
    ∧ ((In.mk [.str "dog", .str "cat"]).evaluate
        (.list (PyList.ofList [.str "dog", .str "cat"]))).1 = true :=
  ⟨fun b ts => rfl, by decide, by decide⟩

/-- C9: the result of `In.evaluate` on any candidate is unchanged when
the constructor's base values are replaced by any list with the same
distinct elements — in particular under permutation and under
duplication of base values. -/
theorem In.evaluate_base_set_invariant (b1 b2 : List PyVal)
    (h : setEq b1 b2 = true) (v : PyVal) :
    ((In.mk b1).evaluate v).1 = ((In.mk b2).evaluate v).1 := by
  rw [setEq_eq_true_iff] at h
  cases v with
  | list l =>
      simp only [In.evaluate]
      rw [Bool.eq_iff_iff, setEq_eq_true_iff, setEq_eq_true_iff]
      constructor
      · intro hall x
        rw [← h x]
        exact hall x
      · intro hall x
        rw [h x]
        exact hall x
  | str s =>
      simp only [In.evaluate, decide_eq_decide]
      exact h (.str s)
  | int n =>
      simp only [In.evaluate, decide_eq_decide]
      exact h (.int n)
  | bool c =>
      simp only [In.evaluate, decide_eq_decide]
      exact h (.bool c)
  | tuple t =>
      simp only [In.evaluate, decide_eq_decide]
      exact h (.tuple t)

/-- Witness for C9: duplicating a base value changes nothing, and
`In("a","a").evaluate(["a"])` is true. -/
theorem In.evaluate_base_set_invariant_witness :
    setEq [.str "a", .str "a"] [.str "a"] = true ∧
      ((In.mk [PyVal.str "a", PyVal.str "a"]).evaluate
          (.list (PyList.ofList [.str "a"]))).1
        = ((In.mk [PyVal.str "a"]).evaluate
          (.list (PyList.ofList [.str "a"]))).1 ∧
      ((In.mk [PyVal.str "a", PyVal.str "a"]).evaluate
          (.list (PyList.ofList [.str "a"]))).1 = true :=
  ⟨by decide,
    In.evaluate_base_set_invariant [.str "a", .str "a"] [.str "a"]
      (by decide) (.list (PyList.ofList [.str "a"])),
    by decide⟩

/-- C10: `In` constructed with zero base values is accepted, and its
`evaluate` returns true exactly on the empty list candidate: every
non-list candidate and every non-empty list candidate gives false. -/
theorem In.evaluate_empty_base (v : PyVal) :
    ((In.mk []).evaluate v).1 = true ↔ v = .list .nil := by
  cases v with
  | list l =>
      simp only [In.evaluate, setEq_eq_true_iff]
      rw [show (PyVal.list l = PyVal.list PyList.nil) ↔ l = PyList.nil by
        constructor
        · intro h
          cases h
          rfl
        · intro h
          rw [h]]
      rw [← PyList.toList_eq_nil_iff, List.eq_nil_iff_forall_not_mem]
      constructor
      · intro h x hx
        simpa using (h x).mpr hx
      · intro h x
        simp [h x]
  | str s => simp [In.evaluate]
  | int n => simp [In.evaluate]
  | bool c => simp [In.evaluate]
  | tuple t => simp [In.evaluate]

/-- Witness for C10: the empty-base operator on the empty list is true,
and on a scalar is false. -/
theorem In.evaluate_empty_base_witness :
    ((In.mk []).evaluate (.list .nil)).1 = true ∧
      ((In.mk []).evaluate (.str "dog")).1 ≠ true :=
  ⟨(In.evaluate_empty_base (.list .nil)).mpr rfl,
    fun h =>
      PyVal.noConfusion ((In.evaluate_empty_base (.str "dog")).mp h)⟩

end SimpleRuleEngine
